import Mathlib

/-!
Verification of the trainai-mcp-server tool-dispatch gateway.

The repository is a set of near-duplicate drafts of an HTTP bridge that
exposes the Train.ai REST API (crawl, doc_search, evaluate, persist_flow,
list_flows, get_flow) as MCP tools.  This file embeds, as executable Lean
definitions, the pieces of those drafts that the verified claims are about:

* the JSON values exchanged with the upstream API, together with a
  serializer mirroring JavaScript `JSON.stringify` and a parser mirroring
  `JSON.parse` (numbers are modelled as integers; the tool arguments and
  response bodies exercised here never use fractional numbers);
* `encodeURIComponent` and the `URLSearchParams` form encoding, used by the
  drafts when building upstream URLs;
* the zod input schemas registered in `server.mjs` (`getServer`) and in the
  `part_000` draft, as a validation function over argument objects;
* the upstream request construction and response shaping of each tool
  handler, and the dispatch pipeline that ties them together;
* the `callJson` helper of the `part_001` draft and the hand-rolled
  `tools/call` crawl branch of `server.mjs`, which several claims cite.

Fallible JavaScript code (a `fetch` rejection, a thrown `Error`) is embedded
as `Except String`, where `Except.error` models an exception propagating to
the caller.
-/

/-- JSON values.  Numbers are modelled as integers: the schemas in the
sources only ever constrain integral values (`depth`), and every concrete
body appearing in the claims is integer-valued. -/
inductive Json where
  | null : Json
  | bool (b : Bool) : Json
  | num (n : Int) : Json
  | str (s : String) : Json
  | arr (elems : List Json) : Json
  | obj (fields : List (String × Json)) : Json
deriving Repr

/-- Hexadecimal digit character (uppercase), as produced by JavaScript
percent-encoding. -/
def hexDigitChar (n : Nat) : Char :=
  if n < 10 then Char.ofNat (48 + n) else Char.ofNat (55 + n)

/-- UTF-8 byte sequence of a character, as used by `encodeURIComponent`
when percent-encoding multi-byte characters. -/
def charUtf8Bytes (c : Char) : List Nat :=
  let n := c.toNat
  if n < 128 then [n]
  else if n < 2048 then [192 + n / 64, 128 + n % 64]
  else if n < 65536 then [224 + n / 4096, 128 + (n / 64) % 64, 128 + n % 64]
  else [240 + n / 262144, 128 + (n / 4096) % 64, 128 + (n / 64) % 64, 128 + n % 64]

/-- Percent-encode one byte as `%XX`. -/
def percentByte (b : Nat) : String :=
  String.push (String.push "%" (hexDigitChar (b / 16))) (hexDigitChar (b % 16))

/-- Characters that JavaScript `encodeURIComponent` leaves unescaped:
alphanumerics and `- _ . ! ~ * ( )` and the apostrophe (code 39). -/
def isUriUnreserved (c : Char) : Bool :=
  c.isAlpha || c.isDigit ||
    [45, 95, 46, 33, 126, 42, 39, 40, 41].contains c.toNat

/-- JavaScript `encodeURIComponent`: unreserved characters pass through,
every other character becomes the `%XX` encoding of its UTF-8 bytes. -/
def encodeURIComponent (s : String) : String :=
  s.data.foldl
    (fun acc c =>
      if isUriUnreserved c then acc.push c
      else (charUtf8Bytes c).foldl (fun a b => a ++ percentByte b) acc)
    ""

/-- Characters the `application/x-www-form-urlencoded` serializer (used by
`URLSearchParams.set` in the `part_001` draft) leaves unescaped:
alphanumerics and `* - . _`. -/
def isFormSafe (c : Char) : Bool :=
  c.isAlpha || c.isDigit || [42, 45, 46, 95].contains c.toNat

/-- The `URLSearchParams` value encoding: space becomes `+`, safe characters
pass through, everything else is percent-encoded byte-wise. -/
def formUrlEncode (s : String) : String :=
  s.data.foldl
    (fun acc c =>
      if c.toNat == 32 then acc.push (Char.ofNat 43)
      else if isFormSafe c then acc.push c
      else (charUtf8Bytes c).foldl (fun a b => a ++ percentByte b) acc)
    ""

/-- Escape one character for a JSON string literal, as `JSON.stringify`
does: quote and backslash are escaped, control characters use the short
escapes or `\u00XX`, everything else passes through. -/
def escapeJsonChar (c : Char) : String :=
  let n := c.toNat
  if n == 34 then "\\\""
  else if n == 92 then "\\\\"
  else if n == 10 then "\\n"
  else if n == 9 then "\\t"
  else if n == 13 then "\\r"
  else if n == 8 then "\\b"
  else if n == 12 then "\\f"
  else if n < 32 then "\\u00" ++ String.push (String.push "" (hexDigitChar (n / 16))) (hexDigitChar (n % 16))
  else String.singleton c

/-- Serialize a string to a JSON string literal. -/
def serializeJsonString (s : String) : String :=
  "\"" ++ s.data.foldl (fun acc c => acc ++ escapeJsonChar c) "" ++ "\""

mutual

/-- JavaScript `JSON.stringify` (compact form, which is what the drafts
pass as request bodies). -/
def serializeJson : Json → String
  | Json.null => "null"
  | Json.bool true => "true"
  | Json.bool false => "false"
  | Json.num n => toString n
  | Json.str s => serializeJsonString s
  | Json.arr xs => "[" ++ serializeJsonElems xs ++ "]"
  | Json.obj fs => "\x7b" ++ serializeJsonFields fs ++ "\x7d"

/-- Comma-separated serialization of array elements. -/
def serializeJsonElems : List Json → String
  | [] => ""
  | [x] => serializeJson x
  | x :: y :: xs => serializeJson x ++ "," ++ serializeJsonElems (y :: xs)

/-- Comma-separated serialization of object fields. -/
def serializeJsonFields : List (String × Json) → String
  | [] => ""
  | [(k, v)] => serializeJsonString k ++ ":" ++ serializeJson v
  | (k, v) :: f :: fs =>
      serializeJsonString k ++ ":" ++ serializeJson v ++ "," ++ serializeJsonFields (f :: fs)

end

/-- Skip JSON whitespace (space, tab, newline, carriage return). -/
def skipWs : List Char → List Char
  | [] => []
  | c :: cs =>
      if c.toNat == 32 || c.toNat == 9 || c.toNat == 10 || c.toNat == 13 then skipWs cs
      else c :: cs

/-- Value of a hexadecimal digit character, if it is one. -/
def hexVal (c : Char) : Option Nat :=
  let n := c.toNat
  if 48 ≤ n && n ≤ 57 then some (n - 48)
  else if 65 ≤ n && n ≤ 70 then some (n - 55)
  else if 97 ≤ n && n ≤ 102 then some (n - 87)
  else none

/-- Parse the remainder of a JSON string literal (the opening quote has
been consumed), handling the JSON escape sequences. -/
def parseJsonStr : Nat → List Char → Option (String × List Char)
  | 0, _ => none
  | _ + 1, [] => none
  | fuel + 1, c :: cs =>
      if c.toNat == 34 then some ("", cs)
      else if c.toNat == 92 then
        match cs with
        | [] => none
        | e :: cs2 =>
            let decoded : Option (Char × List Char) :=
              if e.toNat == 34 then some (Char.ofNat 34, cs2)
              else if e.toNat == 92 then some (Char.ofNat 92, cs2)
              else if e.toNat == 47 then some (Char.ofNat 47, cs2)
              else if e.toNat == 110 then some (Char.ofNat 10, cs2)
              else if e.toNat == 116 then some (Char.ofNat 9, cs2)
              else if e.toNat == 114 then some (Char.ofNat 13, cs2)
              else if e.toNat == 98 then some (Char.ofNat 8, cs2)
              else if e.toNat == 102 then some (Char.ofNat 12, cs2)
              else if e.toNat == 117 then
                match cs2 with
                | h1 :: h2 :: h3 :: h4 :: cs3 =>
                    match hexVal h1, hexVal h2, hexVal h3, hexVal h4 with
                    | some a, some b, some c3, some d =>
                        some (Char.ofNat (a * 4096 + b * 256 + c3 * 16 + d), cs3)
                    | _, _, _, _ => none
                | _ => none
              else none
            match decoded with
            | some (ch, rest) =>
                match parseJsonStr fuel rest with
                | some (s, rest2) => some (String.singleton ch ++ s, rest2)
                | none => none
            | none => none
      else
        match parseJsonStr fuel cs with
        | some (s, rest) => some (String.singleton c ++ s, rest)
        | none => none

/-- Parse a run of decimal digits into a natural number (accumulator
style); fails when the first character is not a digit. -/
def parseDigits : List Char → Option (Nat × List Char)
  | cs =>
      let rec go : List Char → Nat → Bool → Option (Nat × List Char)
        | [], acc, seen => if seen then some (acc, []) else none
        | c :: cs', acc, seen =>
            if 48 ≤ c.toNat && c.toNat ≤ 57 then go cs' (acc * 10 + (c.toNat - 48)) true
            else if seen then some (acc, c :: cs')
            else none
      go cs 0 false

mutual

/-- Parse one JSON value (fuelled recursive descent). -/
def parseJsonVal : Nat → List Char → Option (Json × List Char)
  | 0, _ => none
  | fuel + 1, cs =>
      match skipWs cs with
      | [] => none
      | c :: cs' =>
          if c.toNat == 34 then
            match parseJsonStr (fuel + 1) cs' with
            | some (s, rest) => some (Json.str s, rest)
            | none => none
          else if c.toNat == 116 then
            match cs' with
            | r :: u :: e :: rest =>
                if r.toNat == 114 && u.toNat == 117 && e.toNat == 101 then
                  some (Json.bool true, rest)
                else none
            | _ => none
          else if c.toNat == 102 then
            match cs' with
            | a :: l :: s :: e :: rest =>
                if a.toNat == 97 && l.toNat == 108 && s.toNat == 115 && e.toNat == 101 then
                  some (Json.bool false, rest)
                else none
            | _ => none
          else if c.toNat == 110 then
            match cs' with
            | u :: l :: l2 :: rest =>
                if u.toNat == 117 && l.toNat == 108 && l2.toNat == 108 then
                  some (Json.null, rest)
                else none
            | _ => none
          else if c.toNat == 45 then
            match parseDigits cs' with
            | some (n, rest) => some (Json.num (-(n : Int)), rest)
            | none => none
          else if 48 ≤ c.toNat && c.toNat ≤ 57 then
            match parseDigits (c :: cs') with
            | some (n, rest) => some (Json.num (n : Int), rest)
            | none => none
          else if c.toNat == 91 then
            parseJsonArr fuel cs'
          else if c.toNat == 123 then
            parseJsonObj fuel cs'
          else none

/-- Parse the elements of a JSON array (the `[` has been consumed). -/
def parseJsonArr : Nat → List Char → Option (Json × List Char)
  | 0, _ => none
  | fuel + 1, cs =>
      match skipWs cs with
      | [] => none
      | c :: cs' =>
          if c.toNat == 93 then some (Json.arr [], cs')
          else
            match parseJsonVal fuel (c :: cs') with
            | some (v, rest) => parseJsonArrTail fuel [v] rest
            | none => none

/-- Parse `, value`* `]` after the first array element. -/
def parseJsonArrTail : Nat → List Json → List Char → Option (Json × List Char)
  | 0, _, _ => none
  | fuel + 1, acc, cs =>
      match skipWs cs with
      | [] => none
      | c :: cs' =>
          if c.toNat == 93 then some (Json.arr acc.reverse, cs')
          else if c.toNat == 44 then
            match parseJsonVal fuel cs' with
            | some (v, rest) => parseJsonArrTail fuel (v :: acc) rest
            | none => none
          else none

/-- Parse the fields of a JSON object (the opening brace has been
consumed). -/
def parseJsonObj : Nat → List Char → Option (Json × List Char)
  | 0, _ => none
  | fuel + 1, cs =>
      match skipWs cs with
      | [] => none
      | c :: cs' =>
          if c.toNat == 125 then some (Json.obj [], cs')
          else if c.toNat == 34 then
            match parseJsonStr (fuel + 1) cs' with
            | some (k, rest) => parseJsonField fuel [] k rest
            | none => none
          else none

/-- Parse `: value` after a field key, then continue with the remaining
fields. -/
def parseJsonField : Nat → List (String × Json) → String → List Char →
    Option (Json × List Char)
  | 0, _, _, _ => none
  | fuel + 1, acc, k, cs =>
      match skipWs cs with
      | c :: cs' =>
          if c.toNat == 58 then
            match parseJsonVal fuel cs' with
            | some (v, rest) => parseJsonObjTail fuel ((k, v) :: acc) rest
            | none => none
          else none
      | [] => none

/-- Parse `, "key": value`* and the closing brace after a field. -/
def parseJsonObjTail : Nat → List (String × Json) → List Char →
    Option (Json × List Char)
  | 0, _, _ => none
  | fuel + 1, acc, cs =>
      match skipWs cs with
      | [] => none
      | c :: cs' =>
          if c.toNat == 125 then some (Json.obj acc.reverse, cs')
          else if c.toNat == 44 then
            match skipWs cs' with
            | c2 :: cs2 =>
                if c2.toNat == 34 then
                  match parseJsonStr (fuel + 1) cs2 with
                  | some (k, rest) => parseJsonField fuel acc k rest
                  | none => none
                else none
            | [] => none
          else none

end

/-- JavaScript `JSON.parse`, restricted to integer numbers: `some` on a
well-formed document with nothing but whitespace after it, `none` (a thrown
`SyntaxError`) otherwise. -/
def parseJson (s : String) : Option Json :=
  match parseJsonVal (s.length + 1) s.data with
  | some (j, rest) => if skipWs rest == [] then some j else none
  | none => none

/-- Stand-in for the message of the `SyntaxError` that `JSON.parse` (and
`Response.json()`) raises on malformed input; the exact V8 wording is
environment-dependent and no claim depends on it. -/
def jsonSyntaxErrorMsg : String := "Unexpected token in JSON"

/-! ## The gateway data model -/

/-- HTTP method used by the drafts (only GET and POST occur). -/
inductive Method where
  | GET : Method
  | POST : Method
deriving DecidableEq, Repr

/-- Method name as it appears in JavaScript string interpolation. -/
def methodStr : Method → String
  | Method.GET => "GET"
  | Method.POST => "POST"

/-- An upstream HTTP request as the handlers build it: a method, the path
plus query string relative to the configured base URL, and an optional
JSON-serialized body. -/
structure UpstreamRequest where
  method : Method
  pathQuery : String
  body : Option String
deriving DecidableEq, Repr

/-- Upstream base URL; the default of `process.env.TRAINAI_API_BASE` in
every draft. -/
def API_BASE : String := "https://trainai-tools.onrender.com"

/-- What the JavaScript `fetch` of a request produces: either an HTTP
response (any status) with its status text and raw body, or a rejection of
the fetch promise (DNS failure, connection refused, timeout). -/
inductive FetchResult where
  | response (status : Nat) (statusText : String) (body : String) : FetchResult
  | networkError (msg : String) : FetchResult
deriving DecidableEq, Repr

/-- `Response.ok`: status in [200,299]. -/
def okStatus (st : Nat) : Bool := 200 ≤ st && st ≤ 299

/-- One item of an MCP tool result: the drafts emit `type:"text"` items and
`type:"json"` items. -/
inductive ContentItem where
  | text (s : String) : ContentItem
  | json (j : Json) : ContentItem
deriving Repr

/-- The uniform envelope a tool call returns: content items plus the error
flag (absent in the sources' success returns, which is the same as
`false`). -/
structure ToolResult where
  content : List ContentItem
  isError : Bool
deriving Repr

/-- One incoming tool call: the tool name and the argument object. -/
structure ToolInvocation where
  toolName : String
  arguments : List (String × Json)
deriving Repr

/-- The six tools registered across the drafts (`server.mjs` registers the
first four; the `part_000` draft also registers `list_flows` and
`get_flow`). -/
inductive Tool where
  | crawl | doc_search | evaluate | persist_flow | list_flows | get_flow
deriving DecidableEq, Repr

/-- Registered name of each tool. -/
def nameOf : Tool → String
  | Tool.crawl => "crawl"
  | Tool.doc_search => "doc_search"
  | Tool.evaluate => "evaluate"
  | Tool.persist_flow => "persist_flow"
  | Tool.list_flows => "list_flows"
  | Tool.get_flow => "get_flow"

/-- Registry lookup by tool name. -/
def toolOfName (name : String) : Option Tool :=
  if name == "crawl" then some Tool.crawl
  else if name == "doc_search" then some Tool.doc_search
  else if name == "evaluate" then some Tool.evaluate
  else if name == "persist_flow" then some Tool.persist_flow
  else if name == "list_flows" then some Tool.list_flows
  else if name == "get_flow" then some Tool.get_flow
  else none

/-- Property lookup on a JavaScript argument object (first binding wins,
matching object literal access). -/
def lookupArg (args : List (String × Json)) (k : String) : Option Json :=
  (args.find? (fun kv => kv.1 == k)).map (fun kv => kv.2)

/-- The keys each tool's zod input schema declares; every other key is
stripped by `z.object`'s default behavior. -/
def schemaKeys : Tool → List String
  | Tool.crawl => ["url", "depth"]
  | Tool.doc_search => ["query"]
  | Tool.evaluate => ["selector", "route"]
  | Tool.persist_flow => ["flow"]
  | Tool.list_flows => []
  | Tool.get_flow => ["id"]

/-- Scan for a `://` separator followed by a nonempty remainder. -/
def schemeTail : List Char → Bool
  | c1 :: c2 :: c3 :: rest =>
      if c1.toNat == 58 && c2.toNat == 47 && c3.toNat == 47 then !rest.isEmpty
      else schemeTail (c2 :: c3 :: rest)
  | _ => false

/-- Validation of `z.string().url()`: the string must parse as an absolute
URL.  Simplified to requiring a nonempty scheme before a `://` separator
and a nonempty remainder; every URL exercised by the claims is of this
form. -/
def isValidUrl (s : String) : Bool :=
  match s.data with
  | [] => false
  | c :: cs => !(c.toNat == 58) && schemeTail (c :: cs)

/-- Why an argument object was rejected, per spec §4.3 step 2: the first
failing field together with the failure kind. -/
inductive ArgIssue where
  | missing (field : String)
  | wrongType (field : String)
  | outOfRange (field : String)
deriving DecidableEq, Repr

/-- Human-readable form of an `ArgIssue`. -/
def issueText : ArgIssue → String
  | ArgIssue.missing f => f ++ ": missing"
  | ArgIssue.wrongType f => f ++ ": wrong type"
  | ArgIssue.outOfRange f => f ++ ": out of range"

/-- Arguments after validation, per tool.  `crawl`'s depth keeps its
optionality (the handler applies the default), and `persist_flow`'s flow is
optional because `z.unknown()` accepts an absent property. -/
inductive ValArgs where
  | crawl (url : String) (depth : Option Int)
  | doc_search (query : String)
  | evaluate (selector route : String)
  | persist_flow (flow : Option Json)
  | list_flows
  | get_flow (id : String)
deriving Repr

/-- Validation of the `crawl` schema from `server.mjs`:
`url: z.string().url(), depth: z.number().int().min(0).max(3).optional()`. -/
def validateCrawl (args : List (String × Json)) : Except ArgIssue ValArgs :=
  match lookupArg args "url" with
  | none => Except.error (ArgIssue.missing "url")
  | some (Json.str u) =>
      if isValidUrl u then
        match lookupArg args "depth" with
        | none => Except.ok (ValArgs.crawl u none)
        | some (Json.num d) =>
            if 0 ≤ d ∧ d ≤ 3 then Except.ok (ValArgs.crawl u (some d))
            else Except.error (ArgIssue.outOfRange "depth")
        | some _ => Except.error (ArgIssue.wrongType "depth")
      else Except.error (ArgIssue.wrongType "url")
  | some _ => Except.error (ArgIssue.wrongType "url")

/-- Validation of a single required `z.string()` field. -/
def requireString (args : List (String × Json)) (field : String) :
    Except ArgIssue String :=
  match lookupArg args field with
  | none => Except.error (ArgIssue.missing field)
  | some (Json.str s) => Except.ok s
  | some _ => Except.error (ArgIssue.wrongType field)

/-- Validation of each tool's registered input schema (the zod raw shapes
of `server.mjs`'s `getServer` and, for the two flow tools, of the
`part_000` draft).  `z.object` strips unknown keys, so only the declared
keys are inspected. -/
def validate : Tool → List (String × Json) → Except ArgIssue ValArgs
  | Tool.crawl, args => validateCrawl args
  | Tool.doc_search, args =>
      (requireString args "query").map ValArgs.doc_search
  | Tool.evaluate, args =>
      match requireString args "selector" with
      | Except.error e => Except.error e
      | Except.ok s =>
          (requireString args "route").map (fun r => ValArgs.evaluate s r)
  | Tool.persist_flow, args => Except.ok (ValArgs.persist_flow (lookupArg args "flow"))
  | Tool.list_flows, _ => Except.ok ValArgs.list_flows
  | Tool.get_flow, args =>
      (requireString args "id").map ValArgs.get_flow

/-- The upstream request each handler builds, exactly as the source
concatenates it:
`server.mjs` — crawl `POST /crawl?url=enc(url)&depth=d` (`d = depth ?? 1`),
doc_search `GET /doc_search?query=enc(query)`,
evaluate `GET /evaluate?selector=enc(selector)&route=enc(route)`,
persist_flow `POST /persist_flow` with `JSON.stringify(flow)` as the body
(no body when `flow` is absent, since `JSON.stringify(undefined)` is
`undefined`);
`part_000` — list_flows `GET /flows`, get_flow `GET /flows/enc(id)`. -/
def buildRequest : ValArgs → UpstreamRequest
  | ValArgs.crawl url depth =>
      ⟨Method.POST,
        "/crawl?url=" ++ encodeURIComponent url ++ "&depth=" ++ toString (depth.getD 1),
        none⟩
  | ValArgs.doc_search q =>
      ⟨Method.GET, "/doc_search?query=" ++ encodeURIComponent q, none⟩
  | ValArgs.evaluate s r =>
      ⟨Method.GET,
        "/evaluate?selector=" ++ encodeURIComponent s ++ "&route=" ++ encodeURIComponent r,
        none⟩
  | ValArgs.persist_flow f =>
      ⟨Method.POST, "/persist_flow", f.map serializeJson⟩
  | ValArgs.list_flows => ⟨Method.GET, "/flows", none⟩
  | ValArgs.get_flow id => ⟨Method.GET, "/flows/" ++ encodeURIComponent id, none⟩

/-- The tail of the failure message each handler formats for a non-2xx
response: `server.mjs` handlers interpolate
`` `${name} failed: ${resp.status} ${resp.statusText} - ${text}` ``, the
`part_000` flow handlers `` `${name} failed: ${res.status} ${text}` ``. -/
def failTail : Tool → String → String → String
  | Tool.list_flows, _, b => b
  | Tool.get_flow, _, b => b
  | _, stTxt, b => stTxt ++ " - " ++ b

/-- The full `<tool> failed: ...` message for an HTTP failure. -/
def httpFailMsg (t : Tool) (st : Nat) (stTxt b : String) : String :=
  nameOf t ++ " failed: " ++ toString st ++ " " ++ failTail t stTxt b

/-- One tool handler applied to the outcome of its single `fetch`,
embedding the handler bodies of `server.mjs` (crawl, doc_search, evaluate,
persist_flow) and `part_000` (list_flows, get_flow):

* a rejected fetch is an exception propagating out of the handler
  (`Except.error`);
* a non-2xx response produces the `<tool> failed: ...` text — `server.mjs`
  returns it as an `isError: true` result, while the `part_000` flow
  handlers `throw new Error(...)` with it;
* a 2xx response is parsed with `resp.json()`, which throws on a malformed
  body and otherwise yields the `type:"json"` success content. -/
def handleResponse (t : Tool) (r : FetchResult) : Except String ToolResult :=
  match r with
  | FetchResult.networkError m => Except.error m
  | FetchResult.response st stTxt b =>
      if okStatus st then
        match parseJson b with
        | some j => Except.ok ⟨[ContentItem.json j], false⟩
        | none => Except.error jsonSyntaxErrorMsg
      else
        match t with
        | Tool.list_flows => Except.error (httpFailMsg t st stTxt b)
        | Tool.get_flow => Except.error (httpFailMsg t st stTxt b)
        | _ => Except.ok ⟨[ContentItem.text (httpFailMsg t st stTxt b)], true⟩

/-- The registry lookup, validation and request construction that precede
the network call: `none` when the invocation is rejected (unknown tool or
invalid arguments), otherwise the tool and the one request dispatch will
issue. -/
def plan (inv : ToolInvocation) : Option (Tool × UpstreamRequest) :=
  match toolOfName inv.toolName with
  | none => none
  | some t =>
      match validate t inv.arguments with
      | Except.error _ => none
      | Except.ok va => some (t, buildRequest va)

/-- The dispatch gateway, returning the tool result together with the list
of upstream requests issued (so that "no network call" is a statement about
the returned trace).  Registry, schemas, handlers and the unknown-tool
message (`` `Unknown tool: ${name}` ``, thrown by the hand-rolled
`tools/call` dispatcher in `server.mjs`) are embedded from the sources.

Modelled from the spec: the gateway boundary that converts a rejected
invocation or a handler exception into a normal `isError: true` envelope is
the MCP SDK's tool-call wrapper, which is not part of this repository's
sources; spec §4.3 steps 1, 2 and 5 describe it as returning a single text
item (for validation failures, naming the failing field and reason), and
that is embedded here, with a thrown exception surfacing as a text item
carrying the exception's message. -/
def dispatch (client : UpstreamRequest → FetchResult) (inv : ToolInvocation) :
    ToolResult × List UpstreamRequest :=
  match toolOfName inv.toolName with
  | none => (⟨[ContentItem.text ("Unknown tool: " ++ inv.toolName)], true⟩, [])
  | some t =>
      match validate t inv.arguments with
      | Except.error e =>
          (⟨[ContentItem.text ("Invalid arguments for tool " ++ inv.toolName ++ ": " ++ issueText e)], true⟩, [])
      | Except.ok va =>
          let req := buildRequest va
          match handleResponse t (client req) with
          | Except.ok res => (res, [req])
          | Except.error m => (⟨[ContentItem.text m], true⟩, [req])

/-- Success at the Upstream Client level per the spec's data model: a 2xx
response whose body parses as JSON.  Every other outcome (HTTP failure,
network failure, malformed 2xx body) is one of the spec's Failure kinds. -/
def isUpstreamSuccess : FetchResult → Bool
  | FetchResult.response st _ b => okStatus st && (parseJson b).isSome
  | FetchResult.networkError _ => false

/-! ## The `part_001` upstream helper and the hand-rolled crawl branch -/

/-- The `callJson` helper of the `part_001` draft, applied to the outcome
of its single `fetch`.  It builds the full URL with `new URL`/
`URLSearchParams` (form encoding), reads the response text, parses it —
substituting `null` for an empty body and a `\x7braw, parseError\x7d`
wrapper object for an unparseable one — and then *throws*
(`Except.error`) when the response status is not 2xx, with the upstream
method, URL, status, status text and body in the message; a rejected fetch
likewise propagates as an exception. -/
def callJson (method : Method) (path : String) (query : List (String × String))
    (r : FetchResult) : Except String Json :=
  let url := API_BASE ++ path ++
    (match query with
     | [] => ""
     | _ =>
         "?" ++ String.intercalate "&"
           (query.map (fun kv => kv.1 ++ "=" ++ formUrlEncode kv.2)))
  match r with
  | FetchResult.networkError m => Except.error m
  | FetchResult.response st stTxt txt =>
      let json : Json :=
        if txt == "" then Json.null
        else
          match parseJson txt with
          | some j => j
          | none => Json.obj [("raw", Json.str txt), ("parseError", Json.str jsonSyntaxErrorMsg)]
      if okStatus st then Except.ok json
      else
        Except.error
          ("Upstream " ++ methodStr method ++ " " ++ url ++ " failed: " ++
            toString st ++ " " ++ stTxt ++ " " ++ txt)

/-- JavaScript truthiness of an argument property, for the hand-rolled
dispatcher's `if (!url) ...` checks. -/
def jsTruthy : Option Json → Bool
  | none => false
  | some Json.null => false
  | some (Json.bool b) => b
  | some (Json.num n) => !(n == 0)
  | some (Json.str s) => !(s == "")
  | some (Json.arr _) => true
  | some (Json.obj _) => true

mutual

/-- JavaScript `String(...)` coercion as used by template-literal
interpolation (arrays join their elements with commas, objects print as
`[object Object]`). -/
def jsToString : Json → String
  | Json.null => "null"
  | Json.bool true => "true"
  | Json.bool false => "false"
  | Json.num n => toString n
  | Json.str s => s
  | Json.arr xs => jsToStringList xs
  | Json.obj _ => "[object Object]"

/-- Comma-joined coercion of array elements. -/
def jsToStringList : List Json → String
  | [] => ""
  | [x] => jsToString x
  | x :: y :: xs => jsToString x ++ "," ++ jsToStringList (y :: xs)

end

/-- The `crawl` branch of the hand-rolled `tools/call` dispatcher in
`server.mjs` (the third draft in that file): it destructures
`\x7b url, depth = 1 \x7d` from the arguments, throws `"crawl requires
url"` when `url` is falsy, performs *no* range check on `depth`, issues
`POST /crawl?url=enc(url)&depth=$\x7bdepth\x7d`, and wraps
`await apiResponse.json().catch(() => null)` — any status, parse failures
become `null` — in a success envelope.  The returned list records the
requests actually fetched. -/
def handRolledCrawl (client : UpstreamRequest → FetchResult)
    (args : List (String × Json)) : Except String ToolResult × List UpstreamRequest :=
  let urlArg := lookupArg args "url"
  if jsTruthy urlArg then
    let urlStr := jsToString (urlArg.getD Json.null)
    let depthVal := (lookupArg args "depth").getD (Json.num 1)
    let req : UpstreamRequest :=
      ⟨Method.POST,
        "/crawl?url=" ++ encodeURIComponent urlStr ++ "&depth=" ++ jsToString depthVal,
        none⟩
    match client req with
    | FetchResult.networkError m => (Except.error m, [req])
    | FetchResult.response _ _ b =>
        (Except.ok ⟨[ContentItem.json ((parseJson b).getD Json.null)], false⟩, [req])
  else
    (Except.error "crawl requires url", [])

/-! ## The spec's §4.1 request table, for the round-trip claim -/

/-- An upstream request in the structured form the spec's §4.1 table uses:
method, path template (placeholders already filled), named query
parameters, and an optional JSON body. -/
structure SpecRequest where
  method : Method
  path : String
  query : List (String × String)
  body : Option Json
deriving Repr

/-- Modelled from the spec: the §4.1 tool table.  crawl is `POST /crawl`
with query `url, depth` (default 1) and no body; doc_search `GET
/doc_search` with query `query`; evaluate `GET /evaluate` with query
`selector, route`; persist_flow `POST /persist_flow` with the flow as the
JSON body and no query; list_flows `GET /flows`; get_flow `GET
/flows/\x7bid\x7d` with the id in the path (encoded, as the spec's path
placeholders leave encoding implicit and the source encodes). -/
def specRequest : ValArgs → SpecRequest
  | ValArgs.crawl url depth =>
      ⟨Method.POST, "/crawl", [("url", url), ("depth", toString (depth.getD 1))], none⟩
  | ValArgs.doc_search q => ⟨Method.GET, "/doc_search", [("query", q)], none⟩
  | ValArgs.evaluate s r =>
      ⟨Method.GET, "/evaluate", [("selector", s), ("route", r)], none⟩
  | ValArgs.persist_flow f => ⟨Method.POST, "/persist_flow", [], f⟩
  | ValArgs.list_flows => ⟨Method.GET, "/flows", [], none⟩
  | ValArgs.get_flow id => ⟨Method.GET, "/flows/" ++ encodeURIComponent id, [], none⟩

/-- Serialize the query parameters of a structured request, percent-
encoding every value as spec §4.2 prescribes. -/
def queryString : List (String × String) → String
  | [] => ""
  | [kv] => kv.1 ++ "=" ++ encodeURIComponent kv.2
  | kv :: kv2 :: rest =>
      kv.1 ++ "=" ++ encodeURIComponent kv.2 ++ "&" ++ queryString (kv2 :: rest)

/-- Flatten a structured spec request to the wire form the handlers build:
path plus `?`-prefixed encoded query (when any), body serialized as
JSON. -/
def renderSpec (s : SpecRequest) : UpstreamRequest :=
  ⟨s.method,
    s.path ++ (match s.query with | [] => "" | _ => "?" ++ queryString s.query),
    s.body.map serializeJson⟩

/-! ## Helper lemmas -/

/-- Strings with equal character data are equal. -/
theorem strDataEq {a b : String} (h : a.data = b.data) : a = b := by
  cases a; cases b; exact congrArg String.mk h

/-- String concatenation is associative. -/
theorem sappAssoc (a b c : String) : a ++ b ++ c = a ++ (b ++ c) := by
  apply strDataEq
  show (a.data ++ b.data) ++ c.data = a.data ++ (b.data ++ c.data)
  exact List.append_assoc a.data b.data c.data

/-- The empty string is a right identity for concatenation. -/
theorem sappNil (a : String) : a ++ "" = a := by
  apply strDataEq
  show a.data ++ [] = a.data
  exact List.append_nil a.data

/-- Core of the round-trip property: for arguments whose depth (when
present) is within the validated range, the request a handler builds and
the flattened §4.1 table row coincide. -/
theorem buildRenderAux : ∀ (va : ValArgs)
    (_ : ∀ u d, va = ValArgs.crawl u (some d) → 0 ≤ d ∧ d ≤ 3),
    buildRequest va = renderSpec (specRequest va) := by
  intro va hd
  cases va with
  | crawl u depth =>
      cases depth with
      | none =>
          simp only [buildRequest, renderSpec, specRequest, queryString,
            UpstreamRequest.mk.injEq, sappAssoc, Option.map_none', true_and, and_true]
          all_goals rfl
      | some d =>
          have hb := hd u d rfl
          have : d = 0 ∨ d = 1 ∨ d = 2 ∨ d = 3 := by omega
          rcases this with rfl | rfl | rfl | rfl <;>
            (simp only [buildRequest, renderSpec, specRequest, queryString,
              UpstreamRequest.mk.injEq, sappAssoc, Option.map_none', true_and, and_true]
             all_goals rfl)
  | doc_search q =>
      simp only [buildRequest, renderSpec, specRequest, queryString,
        UpstreamRequest.mk.injEq, sappAssoc, Option.map_none', true_and, and_true]
      all_goals rfl
  | evaluate s r =>
      simp only [buildRequest, renderSpec, specRequest, queryString,
        UpstreamRequest.mk.injEq, sappAssoc, Option.map_none', true_and, and_true]
      all_goals rfl
  | persist_flow f =>
      simp only [buildRequest, renderSpec, specRequest, queryString,
        UpstreamRequest.mk.injEq, sappAssoc, sappNil, Option.map_none', true_and, and_true]
  | list_flows => rfl
  | get_flow i =>
      simp only [buildRequest, renderSpec, specRequest, queryString,
        UpstreamRequest.mk.injEq, sappAssoc, sappNil, Option.map_none', true_and, and_true]

/-- Validation only ever accepts a crawl depth inside [0,3]. -/
theorem validateOkDepth : ∀ args u d,
    validate Tool.crawl args = Except.ok (ValArgs.crawl u (some d)) → 0 ≤ d ∧ d ≤ 3 := by
  intro args u d h
  unfold validate validateCrawl at h
  repeat' split at h
  all_goals simp_all

/-- When planning succeeds, dispatch issues exactly the planned request and
shapes whatever the handler makes of the client's answer. -/
theorem dispatch_of_plan : ∀ (client : UpstreamRequest → FetchResult) (inv : ToolInvocation)
    (t : Tool) (req : UpstreamRequest), plan inv = some (t, req) →
    dispatch client inv =
      (match handleResponse t (client req) with
       | Except.ok res => (res, [req])
       | Except.error m => (⟨[ContentItem.text m], true⟩, [req])) := by
  intro client inv t req h
  unfold plan at h
  unfold dispatch
  split
  · rename_i heq
    simp only [heq] at h
    exact Option.noConfusion h
  · rename_i t' heq
    simp only [heq] at h
    split
    · rename_i e hv
      simp only [hv] at h
      exact Option.noConfusion h
    · rename_i va hv
      simp only [hv, Option.some.injEq, Prod.mk.injEq] at h
      obtain ⟨rfl, rfl⟩ := h
      rfl

/-! ## Claim theorems -/

/-- C1: for every invocation, the `isError` flag of the dispatched result
is `true` exactly when the invocation is rejected (unknown tool or invalid
arguments) or the Upstream Client outcome is one of the Failure kinds (a
non-2xx response, a network failure, or a 2xx body that is not JSON), and
`false` exactly on Success — the classification is a function of nothing
but the planned request's outcome. -/
theorem dispatch_isError_classification :
    ∀ (client : UpstreamRequest → FetchResult) (inv : ToolInvocation),
    (dispatch client inv).1.isError =
      (match plan inv with
       | none => true
       | some (_, req) => !isUpstreamSuccess (client req)) := by
  intro client inv
  cases ht : toolOfName inv.toolName with
  | none => simp [dispatch, plan, ht]
  | some t =>
      cases hv : validate t inv.arguments with
      | error e => simp [dispatch, plan, ht, hv]
      | ok va =>
          simp only [dispatch, plan, ht, hv]
          cases hr : client (buildRequest va) with
          | networkError m => simp [handleResponse, isUpstreamSuccess]
          | response st stTxt b =>
              by_cases hok : okStatus st
              · cases hp : parseJson b <;>
                  simp [handleResponse, isUpstreamSuccess, hok, hp]
              · cases t <;>
                  simp [handleResponse, isUpstreamSuccess, hok]

/-- C2: for every tool and every argument object the registered schema
accepts, the upstream request the handler builds has exactly the method,
path, percent-encoded query parameters and body assignment of the spec's
§4.1 table (flattened by `renderSpec`) — no extra fields and no missing
ones, since `specRequest` lists the table's fields verbatim. -/
theorem upstreamRequest_matches_spec_table :
    ∀ (t : Tool) (args : List (String × Json)) (va : ValArgs),
    validate t args = Except.ok va → buildRequest va = renderSpec (specRequest va) := by
  intro t args va h
  apply buildRenderAux
  intro u d hva
  subst hva
  cases t with
  | crawl => exact validateOkDepth args u d h
  | doc_search =>
      exfalso; unfold validate requireString at h
      repeat' split at h
      all_goals simp_all [Except.map]
  | evaluate =>
      exfalso; unfold validate requireString at h
      repeat' split at h
      all_goals simp_all [Except.map]
  | persist_flow =>
      exfalso; unfold validate at h
      simp_all
  | list_flows =>
      exfalso; unfold validate at h
      simp_all
  | get_flow =>
      exfalso; unfold validate requireString at h
      repeat' split at h
      all_goals simp_all [Except.map]

/-- C2 witness: the crawl row of the table, instantiated at a concrete
valid invocation. -/
theorem upstreamRequest_matches_spec_table_witness :
    buildRequest (ValArgs.crawl "https://example.com" (some 2)) =
      renderSpec (specRequest (ValArgs.crawl "https://example.com" (some 2))) :=
  upstreamRequest_matches_spec_table Tool.crawl
    [("url", Json.str "https://example.com"), ("depth", Json.num 2)]
    (ValArgs.crawl "https://example.com" (some 2)) (by rfl)

/-- C3 counterexample: the hand-rolled `tools/call` crawl branch in
`server.mjs` checks only truthiness of `url`, so an invocation whose `url`
fails the declared URL format constraint (`"not a url"`, rejected by the
registered `z.string().url()` schema and by the format the same draft
advertises in its tools/list entry) is fetched upstream anyway — the trace
contains the request — and wrapped in a success envelope, refuting the
universal claim that every type/format-violating invocation is rejected
before any network call. -/
theorem handRolled_crawl_fetches_invalid_url :
    isValidUrl "not a url" = false ∧
    (handRolledCrawl (fun _ => FetchResult.response 200 "OK" "[]")
        [("url", Json.str "not a url")]).2 =
      [⟨Method.POST, "/crawl?url=not%20a%20url&depth=1", none⟩] ∧
    (handRolledCrawl (fun _ => FetchResult.response 200 "OK" "[]")
        [("url", Json.str "not a url")]).1 =
      Except.ok ⟨[ContentItem.json (Json.arr [])], false⟩ :=
  ⟨rfl, rfl, rfl⟩

/-- C3 (amended): in the schema-validated gateway, an invocation whose
arguments the registered schema rejects (missing required field, wrong
type, out-of-range value) produces an `isError` result and an empty
request trace — the Upstream Client is never invoked; the hand-rolled
`tools/call` branch checks only truthiness, so wrong-typed or non-URL
values reach the network. -/
theorem validation_failure_rejected_without_network :
    ∀ (client : UpstreamRequest → FetchResult) (name : String)
    (args : List (String × Json)) (t : Tool) (e : ArgIssue),
    toolOfName name = some t → validate t args = Except.error e →
    dispatch client ⟨name, args⟩ =
      (⟨[ContentItem.text ("Invalid arguments for tool " ++ name ++ ": " ++ issueText e)],
        true⟩, []) := by
  intro client name args t e ht hv
  simp [dispatch, ht, hv]

/-- C3 witness: `crawl` with empty arguments (missing required `url`) is
rejected with no network call. -/
theorem validation_failure_rejected_without_network_witness :
    dispatch (fun _ => FetchResult.response 200 "OK" "[]") ⟨"crawl", []⟩ =
      (⟨[ContentItem.text ("Invalid arguments for tool " ++ "crawl" ++ ": " ++
          issueText (ArgIssue.missing "url"))], true⟩, []) :=
  validation_failure_rejected_without_network
    (fun _ => FetchResult.response 200 "OK" "[]") "crawl" [] Tool.crawl
    (ArgIssue.missing "url") rfl rfl

/-- An out-of-range numeric depth always fails crawl validation, whatever
the other arguments hold. -/
theorem crawl_depth_error : ∀ (args : List (String × Json)) (d : Int),
    lookupArg args "depth" = some (Json.num d) → (d < 0 ∨ 3 < d) →
    ∃ e, validate Tool.crawl args = Except.error e := by
  intro args d hd hrange
  simp only [validate, validateCrawl]
  cases hu : lookupArg args "url" with
  | none => exact ⟨_, rfl⟩
  | some ju =>
      cases ju with
      | str u =>
          by_cases hvu : isValidUrl u
          · rw [hd]
            have hns : ¬(0 ≤ d ∧ d ≤ 3) := by omega
            simp [hvu, hns]
          · simp [hvu]
      | null => exact ⟨_, rfl⟩
      | bool b => exact ⟨_, rfl⟩
      | num n => exact ⟨_, rfl⟩
      | arr xs => exact ⟨_, rfl⟩
      | obj fs => exact ⟨_, rfl⟩

/-- C4 counterexample: the hand-rolled `tools/call` crawl branch in
`server.mjs`, given `depth = 7` (outside [0,3]) and a valid `url`, makes
the network call anyway — the trace contains the request, with the
out-of-range depth forwarded verbatim in the query — and returns a success
envelope, refuting the claim that such an invocation is rejected by
validation with no network call. -/
theorem handRolled_crawl_forwards_out_of_range_depth :
    (handRolledCrawl (fun _ => FetchResult.response 200 "OK" "[]")
        [("url", Json.str "https://example.com"), ("depth", Json.num 7)]).2 =
      [⟨Method.POST, "/crawl?url=https%3A%2F%2Fexample.com&depth=7", none⟩] ∧
    (handRolledCrawl (fun _ => FetchResult.response 200 "OK" "[]")
        [("url", Json.str "https://example.com"), ("depth", Json.num 7)]).1 =
      Except.ok ⟨[ContentItem.json (Json.arr [])], false⟩ :=
  ⟨rfl, rfl⟩

/-- C4 (amended): in the schema-validated gateway (the zod schemas of
`server.mjs`'s `getServer`), a crawl invocation whose `depth` is a number
outside [0,3] is rejected — `isError` and an empty request trace — and when
`depth` is absent (with a valid `url`) the planned request carries the
default depth 1; the hand-rolled `tools/call` branch performs no such
check. -/
theorem crawl_depth_validation_and_default :
    (∀ (client : UpstreamRequest → FetchResult) (args : List (String × Json)) (d : Int),
        lookupArg args "depth" = some (Json.num d) → (d < 0 ∨ 3 < d) →
        (dispatch client ⟨"crawl", args⟩).1.isError = true ∧
          (dispatch client ⟨"crawl", args⟩).2 = []) ∧
    (∀ (args : List (String × Json)) (u : String),
        lookupArg args "url" = some (Json.str u) → isValidUrl u = true →
        lookupArg args "depth" = none →
        plan ⟨"crawl", args⟩ =
          some (Tool.crawl, buildRequest (ValArgs.crawl u (some 1)))) := by
  constructor
  · intro client args d hd hrange
    obtain ⟨e, hv⟩ := crawl_depth_error args d hd hrange
    have ht : toolOfName "crawl" = some Tool.crawl := rfl
    constructor <;> simp [dispatch, ht, hv]
  · intro args u hu hvu hd
    have ht : toolOfName "crawl" = some Tool.crawl := rfl
    simp [plan, ht, validate, validateCrawl, hu, hvu, hd, buildRequest]

/-- C4 witness: `depth = 7` with a valid url is rejected by the validated
gateway with no request issued, and an invocation without `depth` plans
the request with depth 1. -/
theorem crawl_depth_validation_and_default_witness :
    ((dispatch (fun _ => FetchResult.response 200 "OK" "[]")
        ⟨"crawl", [("url", Json.str "https://example.com"), ("depth", Json.num 7)]⟩).1.isError
          = true ∧
      (dispatch (fun _ => FetchResult.response 200 "OK" "[]")
        ⟨"crawl", [("url", Json.str "https://example.com"), ("depth", Json.num 7)]⟩).2 = []) ∧
    plan ⟨"crawl", [("url", Json.str "https://example.com")]⟩ =
      some (Tool.crawl, buildRequest (ValArgs.crawl "https://example.com" (some 1))) :=
  ⟨crawl_depth_validation_and_default.1 (fun _ => FetchResult.response 200 "OK" "[]")
      [("url", Json.str "https://example.com"), ("depth", Json.num 7)] 7 rfl
      (Or.inr (by norm_num)),
   crawl_depth_validation_and_default.2 [("url", Json.str "https://example.com")]
      "https://example.com" rfl rfl rfl⟩

/-- C5: an invocation naming a tool outside the registry produces a normal
error-flagged result whose single text item is the source's
`Unknown tool: <name>` message — the name is contained in the message and
the gateway returns a value rather than raising. -/
theorem unknown_tool_reported_not_raised :
    ∀ (client : UpstreamRequest → FetchResult) (name : String)
    (args : List (String × Json)),
    toolOfName name = none →
    dispatch client ⟨name, args⟩ =
      (⟨[ContentItem.text ("Unknown tool: " ++ name)], true⟩, []) := by
  intro client name args ht
  simp [dispatch, ht]

/-- C5 witness: the `nonexistent` tool yields an error result whose
message visibly contains the name. -/
theorem unknown_tool_reported_not_raised_witness :
    dispatch (fun _ => FetchResult.response 200 "OK" "[]") ⟨"nonexistent", []⟩ =
      (⟨[ContentItem.text ("Unknown tool: " ++ "nonexistent")], true⟩, []) :=
  unknown_tool_reported_not_raised (fun _ => FetchResult.response 200 "OK" "[]")
    "nonexistent" [] rfl

/-- C6 counterexample: on a network-level failure the `server.mjs`
handlers do not catch the fetch exception, so the error envelope carries
only the underlying message (here `fetch failed`), which does not have the
claimed `<toolName> failed: network error <diagnostic>` shape — it does not
even start with the tool's name. -/
theorem network_failure_message_not_shaped :
    (dispatch (fun _ => FetchResult.networkError "fetch failed")
        ⟨"persist_flow", [("flow", Json.obj [("a", Json.num 1)])]⟩).1 =
      ⟨[ContentItem.text "fetch failed"], true⟩ ∧
    "persist_flow failed: ".isPrefixOf "fetch failed" = false :=
  ⟨rfl, by decide⟩

/-- C6 (amended): for every planned invocation whose upstream outcome is a
non-2xx HTTP response, the result is error-flagged with a single text item
of the shape `<toolName> failed: <statusCode> <diagnostic>` (status text
and body for the `server.mjs` handlers, body alone for the `part_000` flow
handlers); network-level failures surface only the raw exception message
without this shape. -/
theorem http_failure_message_shape :
    ∀ (client : UpstreamRequest → FetchResult) (inv : ToolInvocation)
    (t : Tool) (req : UpstreamRequest) (st : Nat) (stTxt b : String),
    plan inv = some (t, req) → client req = FetchResult.response st stTxt b →
    okStatus st = false →
    (dispatch client inv).1 = ⟨[ContentItem.text (httpFailMsg t st stTxt b)], true⟩ ∧
      ∃ rest, httpFailMsg t st stTxt b =
        nameOf t ++ " failed: " ++ toString st ++ " " ++ rest := by
  intro client inv t req st stTxt b hp hc hok
  constructor
  · rw [dispatch_of_plan client inv t req hp, hc]
    cases t <;> simp [handleResponse, hok]
  · exact ⟨failTail t stTxt b, rfl⟩

/-- C6 witness: a 500 on `persist_flow` yields an error text containing
both `persist_flow` and `500`. -/
theorem http_failure_message_shape_witness :
    (dispatch (fun _ => FetchResult.response 500 "Internal Server Error" "boom")
        ⟨"persist_flow", [("flow", Json.obj [("a", Json.num 1)])]⟩).1 =
      ⟨[ContentItem.text (httpFailMsg Tool.persist_flow 500 "Internal Server Error" "boom")],
        true⟩ ∧
    httpFailMsg Tool.persist_flow 500 "Internal Server Error" "boom" =
      "persist_flow failed: 500 Internal Server Error - boom" :=
  ⟨(http_failure_message_shape
      (fun _ => FetchResult.response 500 "Internal Server Error" "boom")
      ⟨"persist_flow", [("flow", Json.obj [("a", Json.num 1)])]⟩ Tool.persist_flow
      (buildRequest (ValArgs.persist_flow (some (Json.obj [("a", Json.num 1)]))))
      500 "Internal Server Error" "boom" rfl rfl rfl).1, rfl⟩

/-- C7 counterexample: `callJson` (the `part_001` upstream helper) applied
to a 500 response raises — it evaluates to `Except.error`, an exception
propagating past its boundary carrying the status and body in the message —
rather than returning a typed Failure value, refuting the claim that the
upstream send never throws. -/
theorem callJson_raises_on_http_failure :
    callJson Method.GET "/doc_search" [("query", "login")]
        (FetchResult.response 500 "Internal Server Error" "boom") =
      Except.error
        "Upstream GET https://trainai-tools.onrender.com/doc_search?query=login failed: 500 Internal Server Error boom" :=
  rfl

/-- C7 (amended): within the `server.mjs` handlers a non-2xx HTTP response
is returned as a typed error result without raising, but a network-level
failure propagates out of the handler as an exception (`Except.error` with
the underlying message); only the gateway boundary converts it into a
typed outcome. -/
theorem handler_http_typed_but_network_raises :
    ∀ (st : Nat) (stTxt b m : String),
    (okStatus st = false →
      handleResponse Tool.crawl (FetchResult.response st stTxt b) =
        Except.ok ⟨[ContentItem.text (httpFailMsg Tool.crawl st stTxt b)], true⟩) ∧
    handleResponse Tool.crawl (FetchResult.networkError m) = Except.error m := by
  intro st stTxt b m
  constructor
  · intro hok
    simp [handleResponse, hok]
  · rfl

/-- C7 witness: the crawl handler returns a typed error result for a 500
and raises for a network failure. -/
theorem handler_http_typed_but_network_raises_witness :
    handleResponse Tool.crawl (FetchResult.response 500 "Internal Server Error" "boom") =
      Except.ok ⟨[ContentItem.text (httpFailMsg Tool.crawl 500 "Internal Server Error" "boom")],
        true⟩ ∧
    handleResponse Tool.crawl (FetchResult.networkError "fetch failed") =
      Except.error "fetch failed" :=
  ⟨(handler_http_typed_but_network_raises 500 "Internal Server Error" "boom" "fetch failed").1
      rfl,
   (handler_http_typed_but_network_raises 500 "Internal Server Error" "boom" "fetch failed").2⟩

/-- C8 counterexample: `callJson` applied to a 2xx response whose body is
not JSON returns a *success* (`Except.ok`) carrying the raw text in a
wrapper object, refuting the claim that a malformed 2xx body is always a
Failure. -/
theorem callJson_returns_success_on_malformed_2xx :
    callJson Method.GET "/doc_search" [("query", "x")]
        (FetchResult.response 200 "OK" "<html>oops") =
      Except.ok (Json.obj [("raw", Json.str "<html>oops"),
        ("parseError", Json.str jsonSyntaxErrorMsg)]) :=
  rfl

/-- C8 (amended): in the `getServer` gateway, a planned invocation whose
upstream outcome is a 2xx response with a body `JSON.parse` rejects does
surface as an error-flagged result (the `resp.json()` exception reaches the
boundary); the `part_001` helper and the hand-rolled draft instead pass a
success through. -/
theorem getServer_malformed_2xx_isError :
    ∀ (client : UpstreamRequest → FetchResult) (inv : ToolInvocation)
    (t : Tool) (req : UpstreamRequest) (stTxt b : String),
    plan inv = some (t, req) → client req = FetchResult.response 200 stTxt b →
    parseJson b = none →
    (dispatch client inv).1 = ⟨[ContentItem.text jsonSyntaxErrorMsg], true⟩ := by
  intro client inv t req stTxt b hp hc hb
  rw [dispatch_of_plan client inv t req hp, hc]
  simp [handleResponse, hb, okStatus]

/-- C8 witness: a 2xx `doc_search` response with an HTML body surfaces as
an error result in the `getServer` gateway. -/
theorem getServer_malformed_2xx_isError_witness :
    (dispatch (fun _ => FetchResult.response 200 "OK" "<html>oops")
        ⟨"doc_search", [("query", Json.str "login")]⟩).1 =
      ⟨[ContentItem.text jsonSyntaxErrorMsg], true⟩ :=
  getServer_malformed_2xx_isError (fun _ => FetchResult.response 200 "OK" "<html>oops")
    ⟨"doc_search", [("query", Json.str "login")]⟩ Tool.doc_search
    (buildRequest (ValArgs.doc_search "login")) "OK" "<html>oops" rfl rfl rfl

/-- Appending bindings whose keys differ from `k` does not change an
argument lookup of `k`. -/
theorem lookupArg_append : ∀ (args extras : List (String × Json)) (k : String),
    (∀ kv ∈ extras, kv.1 ≠ k) →
    lookupArg (args ++ extras) k = lookupArg args k := by
  intro args extras k h
  induction args with
  | nil =>
      simp only [List.nil_append, lookupArg]
      have hnone : extras.find? (fun kv => kv.1 == k) = none := by
        apply List.find?_eq_none.mpr
        intro kv hkv
        simpa using h kv hkv
      simp [hnone]
  | cons a as ih =>
      simp only [List.cons_append, lookupArg, List.find?] at ih ⊢
      cases hb : (a.1 == k) with
      | true => simp [hb]
      | false => simpa [hb] using ih

/-- Registry lookup inverts the naming of the registered tools. -/
theorem toolOfName_nameOf : ∀ t : Tool, toolOfName (nameOf t) = some t := by
  intro t; cases t <;> rfl

/-- Validation only inspects the schema's own keys: appending bindings for
any other keys leaves its verdict unchanged. -/
theorem validate_append : ∀ (t : Tool) (args extras : List (String × Json)),
    (∀ kv ∈ extras, kv.1 ∉ schemaKeys t) →
    validate t (args ++ extras) = validate t args := by
  intro t args extras h
  have hk : ∀ k, k ∈ schemaKeys t → lookupArg (args ++ extras) k = lookupArg args k := by
    intro k hks
    apply lookupArg_append
    intro kv hkv hEq
    exact h kv hkv (hEq ▸ hks)
  cases t with
  | crawl =>
      have h1 := hk "url" (by simp [schemaKeys])
      have h2 := hk "depth" (by simp [schemaKeys])
      simp only [validate, validateCrawl]
      rw [h1, h2]
  | doc_search =>
      have h1 := hk "query" (by simp [schemaKeys])
      simp only [validate, requireString]
      rw [h1]
  | evaluate =>
      have h1 := hk "selector" (by simp [schemaKeys])
      have h2 := hk "route" (by simp [schemaKeys])
      simp only [validate, requireString]
      rw [h1, h2]
  | persist_flow =>
      have h1 := hk "flow" (by simp [schemaKeys])
      simp only [validate]
      rw [h1]
  | list_flows => rfl
  | get_flow =>
      have h1 := hk "id" (by simp [schemaKeys])
      simp only [validate, requireString]
      rw [h1]

/-- C9: an invocation whose arguments carry extra bindings for keys the
tool's schema does not declare dispatches exactly as the invocation without
them — unknown fields are stripped (the zod `z.object` default), never a
cause of rejection. -/
theorem unknown_fields_ignored :
    ∀ (t : Tool) (args extras : List (String × Json))
    (client : UpstreamRequest → FetchResult),
    (∀ kv ∈ extras, kv.1 ∉ schemaKeys t) →
    dispatch client ⟨nameOf t, args ++ extras⟩ = dispatch client ⟨nameOf t, args⟩ := by
  intro t args extras client h
  have hv := validate_append t args extras h
  have ht := toolOfName_nameOf t
  simp [dispatch, ht, hv]

/-- C9 witness: a valid crawl invocation with an extra `note` field
dispatches identically to the same invocation without it. -/
theorem unknown_fields_ignored_witness :
    dispatch (fun _ => FetchResult.response 200 "OK" "[]")
        ⟨nameOf Tool.crawl, [("url", Json.str "https://example.com")] ++
          [("note", Json.str "extra")]⟩ =
      dispatch (fun _ => FetchResult.response 200 "OK" "[]")
        ⟨nameOf Tool.crawl, [("url", Json.str "https://example.com")]⟩ :=
  unknown_fields_ignored Tool.crawl [("url", Json.str "https://example.com")]
    [("note", Json.str "extra")] (fun _ => FetchResult.response 200 "OK" "[]")
    (by
      intro kv hkv
      simp only [List.mem_singleton] at hkv
      subst hkv
      decide)

/-- C10: dispatch is a function of the invocation and of the upstream
outcome for the one planned request alone — two clients that answer the
planned request identically produce identical results, whatever they do
elsewhere; together with `dispatch` being a pure function of these inputs
(each HTTP request builds a fresh server with the fixed tool table and
reads no other state), this is the claimed determinism. -/
theorem dispatch_depends_only_on_invocation_and_outcome :
    ∀ (inv : ToolInvocation) (client1 client2 : UpstreamRequest → FetchResult),
    (∀ t req, plan inv = some (t, req) → client1 req = client2 req) →
    dispatch client1 inv = dispatch client2 inv := by
  intro inv client1 client2 h
  cases ht : toolOfName inv.toolName with
  | none => simp [dispatch, ht]
  | some t =>
      cases hv : validate t inv.arguments with
      | error e => simp [dispatch, ht, hv]
      | ok va =>
          have hp : plan inv = some (t, buildRequest va) := by simp [plan, ht, hv]
          have hc := h t (buildRequest va) hp
          simp [dispatch, ht, hv, hc]

/-- C10 witness: a client that answers only the planned `doc_search`
request (and fails on every other request) dispatches identically to the
constant client with the same answer. -/
theorem dispatch_depends_only_on_invocation_and_outcome_witness :
    dispatch (fun _ => FetchResult.response 200 "OK" "[]")
        ⟨"doc_search", [("query", Json.str "login")]⟩ =
      dispatch
        (fun r => if r = buildRequest (ValArgs.doc_search "login")
                  then FetchResult.response 200 "OK" "[]"
                  else FetchResult.networkError "down")
        ⟨"doc_search", [("query", Json.str "login")]⟩ :=
  dispatch_depends_only_on_invocation_and_outcome
    ⟨"doc_search", [("query", Json.str "login")]⟩ _ _
    (by
      intro t req hp
      have hplan : plan ⟨"doc_search", [("query", Json.str "login")]⟩ =
          some (Tool.doc_search, buildRequest (ValArgs.doc_search "login")) := rfl
      rw [hplan] at hp
      simp only [Option.some.injEq, Prod.mk.injEq] at hp
      obtain ⟨rfl, rfl⟩ := hp
      simp)
